import Mathlib

/-!
Shallow embedding of `src/lib/Dispatcher.js` (V8-Control).

The dispatcher sits between an application and a message-oriented
connection. Its state holds a request-id counter, pending resolver and
rejector tables keyed by request id, a domain-listener registry and a
schema-derived parameter map. We model:

* JS objects used as string-keyed maps as association lists
  (`List (String × β)`), with JS property assignment as `upsert`
  (replace in place, keeping original key position, else append) and
  property lookup as `lookupA`; the prototype chain is not modelled, so
  keys inherited from `Object.prototype` (such as `"toString"`) count
  as absent;
* the caller-supplied parameter bag as `String → Option V` (a key bound
  to JS `undefined` is `none`);
* resolver/rejector functions by the request id that keys them, and a
  listener callback by a numeric token; invoking one is an `Output`;
* a thrown exception inside `_handleMessage` (for example reading
  `.indexOf` on an `undefined` method) as `none` of an `Option` result.
-/

namespace V8Control

/-- A declared command parameter: `{name, optional}`; `optional` is
absent (`none`) or a boolean. JS treats a parameter as required unless
`optional === true`. -/
structure Parameter where
  name : String
  optional : Option Bool
deriving DecidableEq, Repr

/-- A declared command: `{name, parameters}`; `parameters` may be
absent. -/
structure Command where
  name : String
  parameters : Option (List Parameter)
deriving DecidableEq, Repr

/-- A declared event: `{name}`. -/
structure EventInfo where
  name : String
deriving DecidableEq, Repr

/-- A protocol domain descriptor: `{domain, commands, events}`; `events`
may be absent. -/
structure Domain where
  domain : String
  commands : List Command
  events : Option (List EventInfo)
deriving DecidableEq, Repr

/-- The protocol definition: `{domains}`. -/
structure Protocol where
  domains : List Domain
deriving DecidableEq, Repr

/-- A JS object used as a string-keyed map, in key insertion order. -/
abbrev Assoc (β : Type) := List (String × β)

/-- JS property lookup: first (unique) entry with the given key. -/
def lookupA {β : Type} : Assoc β → String → Option β
  | [], _ => none
  | (k, v) :: rest, k' => if k = k' then some v else lookupA rest k'

/-- JS property assignment `o[k] = v`: replaces the value of an existing
key in place (keeping its insertion position), else appends the key. -/
def upsert {β : Type} (k : String) (v : β) : Assoc β → Assoc β
  | [] => [(k, v)]
  | (k', v') :: rest =>
    if k' = k then (k, v) :: rest else (k', v') :: upsert k v rest

/-- The inner loop of the constructor's parameter-map build: the
`parameterMap[domain][name]` object, mapping parameter name to its
descriptor; `{}` when the command declares no parameters. -/
def buildParams : Option (List Parameter) → Assoc Parameter
  | none => []
  | some ps => ps.foldl (fun acc p => upsert p.name p acc) []

/-- The per-domain part of the constructor's build: maps each command
name to its parameter map. -/
def buildCmdMap (cmds : List Command) : Assoc (Assoc Parameter) :=
  cmds.foldl (fun acc c => upsert c.name (buildParams c.parameters) acc) []

/-- The constructor's `_parameterMap`: domain name → command name →
parameter name → parameter descriptor. -/
def buildParamMap (P : Protocol) : Assoc (Assoc (Assoc Parameter)) :=
  P.domains.foldl (fun acc d => upsert d.domain (buildCmdMap d.commands) acc) []

/-- A caller-supplied parameter bag; `none` models an absent key or a
key bound to JS `undefined`. -/
abbrev Bag (V : Type) := String → Option V

/-- The body of the `missingParams` loop of `_validateParams`: the
parameter is pushed when `optional !== true` and the bag holds no
defined value under its name. -/
def missingPred {V : Type} (params : Bag V) (pname : String)
    (pd : Parameter) : Bool :=
  pd.optional != some true && (params pname).isNone

/-- The `missingParams` list of `_validateParams`: names of declared
parameters that are not `optional: true` and have no defined value in
the bag, in the parameter map's key order. -/
def requiredMissing {V : Type} (known : Assoc Parameter) (params : Bag V) :
    List String :=
  (known.filter (fun kv => missingPred params kv.1 kv.2)).map Prod.fst

/-- The validator `_validateParams(namespace, method, params)`: `some msg` models
`{error: msg}` (truthy), `none` models `{error: 0}` (falsy, success). -/
def validateParams {V : Type} (pm : Assoc (Assoc (Assoc Parameter)))
    (ns method : String) (params : Bag V) : Option String :=
  match lookupA pm ns with
  | none => some ("unknown namespace: " ++ ns)
  | some cmds =>
    match lookupA cmds method with
    | none => some ("unknown method: " ++ ns ++ "." ++ method)
    | some known =>
      if known.length = 0 then
        none
      else
        let missing := requiredMissing known params
        if missing.length > 0 then
          some (method ++ " requires '" ++ String.intercalate "," missing
            ++ "' parameter")
        else
          none

/-- Dispatcher instance state: `_id`, `_resolvers`, `_rejectors` (a
pending request id stands for the resolve/reject function stored under
it), `_domainListeners` (listener callbacks as numeric tokens) and
`_parameterMap`. -/
structure DState (V : Type) where
  id : Nat
  resolvers : List Nat
  rejectors : List Nat
  domainListeners : Assoc (List Nat)
  parameterMap : Assoc (Assoc (Assoc Parameter))
deriving DecidableEq

/-- The state right after `new Dispatcher(connection, protocol)`. -/
def initState (V : Type) (P : Protocol) : DState V :=
  { id := 0
    resolvers := []
    rejectors := []
    domainListeners := []
    parameterMap := buildParamMap P }

/-- An inbound message envelope; every field may be absent. `id = some 0`
models a present but falsy id, `error = some s` a truthy error object
with message `s`. -/
structure Message (V : Type) where
  id : Option Nat
  error : Option String
  result : Option V
  method : Option String
  params : Option V
deriving DecidableEq

/-- Truthiness of `message.id`. -/
def idTruthy : Option Nat → Bool
  | some n => n ≠ 0
  | none => false

/-- An observable callback invocation made by `_handleMessage`:
resolving or rejecting the future pending under a request id, or calling
a registered domain listener with `(prop, params)`. -/
inductive Output (V : Type) where
  | resolve (reqId : Nat) (result : Option V)
  | reject (reqId : Nat) (message : String)
  | call (handler : Nat) (prop : String) (params : Option V)
deriving DecidableEq

/-- The index of the first `.` in a character list, as
`method.indexOf('.')` (`none` for `-1`). -/
def dotIdx : List Char → Option Nat
  | [] => none
  | c :: cs => if c = '.' then some 0 else (dotIdx cs).map (· + 1)

/-- The event-path split of `method` into `(domain, prop)`:
`substr(0, dotIndex)` and `substr(dotIndex + 1)`. With no dot,
`substr(0, -1)` is `""` and `substr(0)` is the whole string. -/
def splitMethod (m : String) : String × String :=
  match dotIdx m.data with
  | some k => (⟨m.data.take k⟩, ⟨m.data.drop (k + 1)⟩)
  | none => ("", m)

/-- The router `_handleMessage(message)`: returns the new state and the callback
invocations made, or `none` when the JS code throws (a falsy-id message
with no `method` string hits `undefined.indexOf`). -/
def handleMessage {V : Type} (st : DState V) (msg : Message V) :
    Option (DState V × List (Output V)) :=
  if idTruthy msg.id then
    match msg.id with
    | some i =>
      let outs :=
        match msg.error with
        | some e => if i ∈ st.rejectors then [Output.reject i e] else []
        | none => if i ∈ st.resolvers then [Output.resolve i msg.result] else []
      some ({ st with
                resolvers := st.resolvers.filter (· ≠ i)
                rejectors := st.rejectors.filter (· ≠ i) }, outs)
    | none => none
  else
    match msg.method with
    | none => none
    | some m =>
      let dp := splitMethod m
      match lookupA st.domainListeners dp.1 with
      | some handlers =>
        some (st, handlers.map (fun h => Output.call h dp.2 msg.params))
      | none => some (st, [])

/-- The registry operation `registerDomainListener(name, handler)`: appends the handler token
to the domain's listener sequence, creating it if absent. -/
def registerDomainListener {V : Type} (st : DState V) (name : String)
    (handler : Nat) : DState V :=
  { st with
      domainListeners :=
        upsert name ((lookupA st.domainListeners name).getD [] ++ [handler])
          st.domainListeners }

/-- The outbound envelope handed to `connection.send` (before
serialization): `{id, method, params}`. -/
structure Envelope (V : Type) where
  id : Nat
  method : String
  params : Bag V

/-- The outbound operation `send(namespace, method, params)`: on validation failure, throws the
validation message before touching the id counter or the connection; on
success, increments the id, hands the envelope to the connection and
registers resolver and rejector under the new id. -/
def send {V : Type} (st : DState V) (ns method : String) (params : Bag V) :
    Except String (DState V × Envelope V) :=
  match validateParams st.parameterMap ns method params with
  | some e => Except.error e
  | none =>
    let newId := st.id + 1
    Except.ok
      ({ st with
           id := newId
           resolvers := newId :: st.resolvers
           rejectors := newId :: st.rejectors },
       { id := newId, method := ns ++ "." ++ method, params := params })

/-- Runs a sequence of `send` calls, skipping failed ones (a failed
`send` throws before mutating any state), and collects the ids of the
envelopes actually handed to the connection. -/
def runSends {V : Type} (st : DState V) :
    List (String × String × Bag V) → DState V × List Nat
  | [] => (st, [])
  | (ns, m, p) :: rest =>
    match send st ns m p with
    | Except.error _ => runSends st rest
    | Except.ok (st1, env) =>
      let r := runSends st1 rest
      (r.1, env.id :: r.2)

/-- The accessor `getDomainDefinition(name)`: first domain whose name matches, else
`null`. -/
def getDomainDefinition (P : Protocol) (name : String) : Option Domain :=
  P.domains.find? (fun d => d.domain = name)

/-- The accessor `getDomainEventNames(name)`: names of the domain's `events` array
(empty when the field is absent); `none` models the throw from
destructuring the `null` returned for an unknown domain. -/
def getDomainEventNames (P : Protocol) (name : String) :
    Option (List String) :=
  match getDomainDefinition P name with
  | none => none
  | some d =>
    some (match d.events with
          | some evs => evs.map EventInfo.name
          | none => [])

/-- The spec's worked example: domain `Page` with command `navigate`
(required `url`, optional `referrer`), parameterless command `reload`
and event `loaded`. Used as the concrete schema for witnesses. -/
def pageDomain : Domain :=
  { domain := "Page"
    commands :=
      [{ name := "navigate"
         parameters := some
           [{ name := "url", optional := none },
            { name := "referrer", optional := some true }] },
       { name := "reload", parameters := none }]
    events := some [{ name := "loaded" }] }

/-- A one-domain protocol definition around `pageDomain`. -/
def pageProto : Protocol := { domains := [pageDomain] }

/-- The empty parameter bag `{}`. -/
def emptyBag : Bag Nat := fun _ => none

/-- A bag holding only an undeclared extra key. -/
def extraBag : Bag Nat := fun n => if n = "extra" then some 7 else none

/-! ### Association-list lemmas -/

theorem lookupA_upsert {β : Type} (l : Assoc β) (k k' : String) (v : β) :
    lookupA (upsert k v l) k' = if k = k' then some v else lookupA l k' := by
  induction l with
  | nil => simp [upsert, lookupA]
  | cons hd tl ih =>
    obtain ⟨k0, v0⟩ := hd
    by_cases h0 : k0 = k
    · subst h0
      by_cases h1 : k0 = k' <;> simp [upsert, lookupA, h1]
    · by_cases h1 : k0 = k'
      · subst h1
        have : ¬ k = k0 := fun h => h0 h.symm
        simp [upsert, lookupA, h0, this]
      · simp [upsert, lookupA, h0, h1, ih]

theorem upsert_notmem {β : Type} (l : Assoc β) (k : String) (v : β)
    (h : k ∉ l.map Prod.fst) : upsert k v l = l ++ [(k, v)] := by
  induction l with
  | nil => simp [upsert]
  | cons hd tl ih =>
    obtain ⟨k0, v0⟩ := hd
    simp only [List.map_cons, List.mem_cons] at h
    push_neg at h
    have h0 : k0 ≠ k := fun he => h.1 he.symm
    simp [upsert, h0, ih h.2]

theorem lookupA_foldl_notmem {α β : Type} (key : α → String) (val : α → β)
    (l : List α) (acc : Assoc β) (k : String) (hk : k ∉ l.map key) :
    lookupA (l.foldl (fun a x => upsert (key x) (val x) a) acc) k
      = lookupA acc k := by
  induction l generalizing acc with
  | nil => rfl
  | cons hd tl ih =>
    simp only [List.map_cons, List.mem_cons] at hk
    push_neg at hk
    rw [List.foldl_cons, ih _ hk.2, lookupA_upsert, if_neg (fun h => hk.1 h.symm)]

theorem lookupA_foldl_mem {α β : Type} (key : α → String) (val : α → β)
    (l : List α) (acc : Assoc β) (d : α) (hmem : d ∈ l)
    (hnd : (l.map key).Nodup) :
    lookupA (l.foldl (fun a x => upsert (key x) (val x) a) acc) (key d)
      = some (val d) := by
  induction l generalizing acc with
  | nil => cases hmem
  | cons hd tl ih =>
    rw [List.map_cons, List.nodup_cons] at hnd
    rcases List.mem_cons.mp hmem with he | ht
    · subst he
      rw [List.foldl_cons, lookupA_foldl_notmem key val tl _ _ hnd.1,
        lookupA_upsert, if_pos rfl]
    · rw [List.foldl_cons]
      exact ih _ ht hnd.2

theorem foldl_upsert_eq_map {α β : Type} (key : α → String) (val : α → β)
    (l : List α) (acc : Assoc β)
    (hdisj : ∀ a ∈ l, key a ∉ acc.map Prod.fst)
    (hnd : (l.map key).Nodup) :
    l.foldl (fun a x => upsert (key x) (val x) a) acc
      = acc ++ l.map (fun x => (key x, val x)) := by
  induction l generalizing acc with
  | nil => simp
  | cons hd tl ih =>
    rw [List.map_cons, List.nodup_cons] at hnd
    rw [List.foldl_cons, upsert_notmem _ _ _ (hdisj hd (List.mem_cons_self hd tl)),
      ih _ ?_ hnd.2]
    · simp
    · intro a ha
      simp only [List.map_append, List.mem_append, List.map_cons, List.map_nil,
        List.mem_singleton]
      push_neg
      refine ⟨hdisj a (List.mem_cons_of_mem hd ha), fun he => hnd.1 ?_⟩
      exact he ▸ List.mem_map_of_mem key ha

/-! ### Schema-index lemmas -/

theorem buildParamMap_notmem (P : Protocol) (ns : String)
    (h : ns ∉ P.domains.map Domain.domain) :
    lookupA (buildParamMap P) ns = none := by
  unfold buildParamMap
  rw [lookupA_foldl_notmem Domain.domain (fun d => buildCmdMap d.commands)
    P.domains [] ns h]
  rfl

theorem buildParamMap_mem (P : Protocol) (d : Domain) (hd : d ∈ P.domains)
    (hnd : (P.domains.map Domain.domain).Nodup) :
    lookupA (buildParamMap P) d.domain = some (buildCmdMap d.commands) :=
  lookupA_foldl_mem Domain.domain (fun d => buildCmdMap d.commands)
    P.domains [] d hd hnd

theorem buildCmdMap_notmem (cmds : List Command) (m : String)
    (h : m ∉ cmds.map Command.name) :
    lookupA (buildCmdMap cmds) m = none := by
  unfold buildCmdMap
  rw [lookupA_foldl_notmem Command.name (fun c => buildParams c.parameters)
    cmds [] m h]
  rfl

theorem buildCmdMap_mem (cmds : List Command) (c : Command) (hc : c ∈ cmds)
    (hnd : (cmds.map Command.name).Nodup) :
    lookupA (buildCmdMap cmds) c.name = some (buildParams c.parameters) :=
  lookupA_foldl_mem Command.name (fun c => buildParams c.parameters)
    cmds [] c hc hnd

theorem buildParams_eq_map (ps : List Parameter)
    (hnd : (ps.map Parameter.name).Nodup) :
    buildParams (some ps) = ps.map (fun p => (p.name, p)) := by
  show ps.foldl (fun acc p => upsert p.name p acc) []
    = ps.map (fun p => (p.name, p))
  exact foldl_upsert_eq_map Parameter.name (fun p => p) ps [] (by simp) hnd

theorem requiredMissing_map {V : Type} (ps : List Parameter) (bag : Bag V) :
    requiredMissing (ps.map (fun p => (p.name, p))) bag
      = (ps.filter (fun p => missingPred bag p.name p)).map Parameter.name := by
  induction ps with
  | nil => rfl
  | cons p tl ih =>
    cases hp : missingPred bag p.name p <;>
      simp only [requiredMissing, List.map_cons, List.filter_cons, hp] <;>
      simp only [requiredMissing] at ih <;> simp [ih]

/-! ### Method-splitting lemmas -/

theorem dotIdx_notmem (l : List Char) (h : '.' ∉ l) : dotIdx l = none := by
  induction l with
  | nil => rfl
  | cons c cs ih =>
    simp only [List.mem_cons] at h
    push_neg at h
    have hc : c ≠ '.' := fun he => h.1 he.symm
    simp [dotIdx, hc, ih h.2]

theorem dotIdx_append_dot (l1 l2 : List Char) (h : '.' ∉ l1) :
    dotIdx (l1 ++ '.' :: l2) = some l1.length := by
  induction l1 with
  | nil => simp [dotIdx]
  | cons c cs ih =>
    simp only [List.mem_cons] at h
    push_neg at h
    have hc : c ≠ '.' := fun he => h.1 he.symm
    simp [dotIdx, hc, ih h.2]

theorem splitMethod_no_dot (m : String) (h : '.' ∉ m.data) :
    splitMethod m = ("", m) := by
  unfold splitMethod
  rw [dotIdx_notmem m.data h]

theorem splitMethod_append (d name : String) (h : '.' ∉ d.data) :
    splitMethod (d ++ "." ++ name) = (d, name) := by
  have hdata : (d ++ "." ++ name).data = d.data ++ '.' :: name.data := by
    show (d.data ++ ['.']) ++ name.data = d.data ++ '.' :: name.data
    simp
  unfold splitMethod
  rw [hdata, dotIdx_append_dot _ _ h]
  have ht : (d.data ++ '.' :: name.data).take d.data.length = d.data :=
    List.take_left _ _
  have hdr : (d.data ++ '.' :: name.data).drop (d.data.length + 1)
      = name.data := by
    rw [show d.data ++ '.' :: name.data = (d.data ++ ['.']) ++ name.data by simp,
      show d.data.length + 1 = (d.data ++ ['.']).length by simp]
    exact List.drop_left _ _
  show ((⟨(d.data ++ '.' :: name.data).take d.data.length⟩ : String),
      (⟨(d.data ++ '.' :: name.data).drop (d.data.length + 1)⟩ : String))
    = (d, name)
  rw [ht, hdr]

/-! ### `send` lemmas -/

theorem send_ok_shape {V : Type} (st : DState V) (ns m : String) (p : Bag V)
    (st1 : DState V) (env : Envelope V)
    (h : send st ns m p = Except.ok (st1, env)) :
    st1.id = st.id + 1 ∧ env.id = st.id + 1 := by
  unfold send at h
  cases hv : validateParams (V := V) st.parameterMap ns m p with
  | some e => rw [hv] at h; cases h
  | none =>
    rw [hv] at h
    simp only [Except.ok.injEq, Prod.mk.injEq] at h
    exact ⟨h.1 ▸ rfl, h.2 ▸ rfl⟩

theorem validateParams_unknown_ns {V : Type}
    (pm : Assoc (Assoc (Assoc Parameter))) (ns m : String) (bag : Bag V)
    (h : lookupA pm ns = none) :
    validateParams pm ns m bag = some ("unknown namespace: " ++ ns) := by
  simp only [validateParams, h]

theorem validateParams_unknown_method {V : Type}
    (pm : Assoc (Assoc (Assoc Parameter))) (ns m : String) (bag : Bag V)
    (cmds : Assoc (Assoc Parameter))
    (h1 : lookupA pm ns = some cmds) (h2 : lookupA cmds m = none) :
    validateParams pm ns m bag
      = some ("unknown method: " ++ ns ++ "." ++ m) := by
  simp only [validateParams, h1, h2]

theorem validateParams_empty {V : Type}
    (pm : Assoc (Assoc (Assoc Parameter))) (ns m : String) (bag : Bag V)
    (cmds : Assoc (Assoc Parameter))
    (h1 : lookupA pm ns = some cmds) (h2 : lookupA cmds m = some []) :
    validateParams pm ns m bag = none := by
  simp only [validateParams, h1, h2]
  rfl

theorem send_of_validate_error {V : Type} (st : DState V) (ns m : String)
    (bag : Bag V) (e : String)
    (h : validateParams st.parameterMap ns m bag = some e) :
    send st ns m bag = Except.error e := by
  simp only [send, h]

theorem send_of_validate_ok {V : Type} (st : DState V) (ns m : String)
    (bag : Bag V) (h : validateParams st.parameterMap ns m bag = none) :
    send st ns m bag = Except.ok
      ({ st with
           id := st.id + 1
           resolvers := (st.id + 1) :: st.resolvers
           rejectors := (st.id + 1) :: st.rejectors },
       { id := st.id + 1, method := ns ++ "." ++ m, params := bag }) := by
  simp only [send, h]

theorem runSends_cons_error {V : Type} (st : DState V) (ns m : String)
    (p : Bag V) (rest : List (String × String × Bag V)) (e : String)
    (h : send st ns m p = Except.error e) :
    runSends st ((ns, m, p) :: rest) = runSends st rest := by
  show (match send st ns m p with
        | Except.error _ => runSends st rest
        | Except.ok (st1, env) =>
          let r := runSends st1 rest
          (r.1, env.id :: r.2)) = runSends st rest
  rw [h]

theorem runSends_cons_ok {V : Type} (st : DState V) (ns m : String)
    (p : Bag V) (rest : List (String × String × Bag V)) (st1 : DState V)
    (env : Envelope V) (h : send st ns m p = Except.ok (st1, env)) :
    runSends st ((ns, m, p) :: rest)
      = ((runSends st1 rest).1, env.id :: (runSends st1 rest).2) := by
  show (match send st ns m p with
        | Except.error _ => runSends st rest
        | Except.ok (st1, env) =>
          let r := runSends st1 rest
          (r.1, env.id :: r.2))
    = ((runSends st1 rest).1, env.id :: (runSends st1 rest).2)
  rw [h]

theorem runSends_ids {V : Type} (calls : List (String × String × Bag V))
    (st : DState V) :
    (runSends st calls).2
      = List.range' (st.id + 1) (runSends st calls).2.length ∧
    (runSends st calls).1.id = st.id + (runSends st calls).2.length := by
  induction calls generalizing st with
  | nil => simp [runSends]
  | cons c rest ih =>
    obtain ⟨ns, m, p⟩ := c
    cases hs : send st ns m p with
    | error e => rw [runSends_cons_error st ns m p rest e hs]; exact ih st
    | ok r =>
      obtain ⟨st1, env⟩ := r
      obtain ⟨hid, henv⟩ := send_ok_shape st ns m p st1 env hs
      rw [runSends_cons_ok st ns m p rest st1 env hs]
      have h1 := ih st1
      rw [hid] at h1
      constructor
      · show env.id :: (runSends st1 rest).2
          = List.range' (st.id + 1) (env.id :: (runSends st1 rest).2).length
        rw [List.length_cons, List.range'_succ, henv]
        exact congrArg _ h1.1
      · show (runSends st1 rest).1.id
          = st.id + (env.id :: (runSends st1 rest).2).length
        rw [List.length_cons, h1.2]
        omega

/-- C2: across any sequence of `send` calls on one dispatcher, the ids
of the envelopes actually handed to the connection (one per successful
`send`; a failed `send` throws before touching the counter) form
exactly `[1, 2, …, n]` — strictly increasing, starting at 1, never
repeating — and the final counter equals the number of sent requests,
so the counter is incremented exactly once per sent request. -/
theorem send_ids_strictly_increasing {V : Type} (P : Protocol)
    (calls : List (String × String × Bag V)) :
    (runSends (initState V P) calls).2
      = List.range' 1 (runSends (initState V P) calls).2.length ∧
    (runSends (initState V P) calls).1.id
      = (runSends (initState V P) calls).2.length ∧
    (runSends (initState V P) calls).2.Nodup := by
  have h := runSends_ids calls (initState V P)
  have h0 : (initState V P).id = 0 := rfl
  rw [h0] at h
  simp only [Nat.zero_add] at h
  refine ⟨h.1, h.2, ?_⟩
  rw [h.1]
  exact List.nodup_range' _ _

/-- C3: `send` with a domain absent from the schema index fails with
`unknown namespace: <domain>`, and with a known domain but unknown
command fails with `unknown method: <domain>.<command>`; the
`Except.error` result carries no new state and no envelope, so the
failure happens before any request id is allocated and before anything
reaches the connection's send primitive. -/
theorem send_unknown_names {V : Type} (st : DState V) (P : Protocol)
    (hpm : st.parameterMap = buildParamMap P) (ns m : String) (bag : Bag V) :
    (ns ∉ P.domains.map Domain.domain →
      send st ns m bag = Except.error ("unknown namespace: " ++ ns)) ∧
    (∀ d : Domain, d ∈ P.domains → (P.domains.map Domain.domain).Nodup →
      ns = d.domain → m ∉ d.commands.map Command.name →
      send st ns m bag = Except.error ("unknown method: " ++ ns ++ "." ++ m)) := by
  constructor
  · intro h
    exact send_of_validate_error st ns m bag _
      (validateParams_unknown_ns _ ns m bag
        (hpm ▸ buildParamMap_notmem P ns h))
  · intro d hd hnd hns hm
    subst hns
    exact send_of_validate_error st d.domain m bag _
      (validateParams_unknown_method _ d.domain m bag _
        (hpm ▸ buildParamMap_mem P d hd hnd)
        (buildCmdMap_notmem d.commands m hm))

/-- Witness for C3 on the `Page` schema: an unknown domain and an
unknown command of a known domain. -/
theorem send_unknown_names_witness :
    send (initState Nat pageProto) "Nope" "x" emptyBag
      = Except.error ("unknown namespace: " ++ "Nope") ∧
    send (initState Nat pageProto) "Page" "zap" emptyBag
      = Except.error ("unknown method: " ++ "Page" ++ "." ++ "zap") :=
  ⟨(send_unknown_names (initState Nat pageProto) pageProto rfl "Nope" "x"
      emptyBag).1 (by decide),
   (send_unknown_names (initState Nat pageProto) pageProto rfl "Page" "zap"
      emptyBag).2 pageDomain (by decide) (by decide) rfl (by decide)⟩

theorem validateParams_missing {V : Type}
    (pm : Assoc (Assoc (Assoc Parameter))) (ns m : String) (bag : Bag V)
    (cmds : Assoc (Assoc Parameter)) (ps : List Parameter)
    (h1 : lookupA pm ns = some cmds)
    (h2 : lookupA cmds m = some (ps.map (fun p => (p.name, p))))
    (hmiss : (ps.filter (fun p => missingPred bag p.name p)).map
      Parameter.name ≠ []) :
    validateParams pm ns m bag
      = some (m ++ " requires '"
          ++ String.intercalate ","
              ((ps.filter (fun p => missingPred bag p.name p)).map
                Parameter.name)
          ++ "' parameter") := by
  have hlen : ¬ (ps.map (fun p => (p.name, p))).length = 0 := by
    simp only [List.length_map, List.length_eq_zero]
    intro h
    subst h
    simp at hmiss
  simp only [validateParams, h1, h2, if_neg hlen, requiredMissing_map]
  rw [if_pos (List.length_pos.mpr hmiss)]

/-- C4: `send` on a command with a non-empty declared parameter list,
given a bag that leaves at least one non-optional declared parameter
with no defined value, fails with
`<command> requires '<missing names>' parameter`, where the missing
names are exactly the required ones absent from the bag, comma-joined,
in the schema's declared order. -/
theorem send_missing_params {V : Type} (st : DState V) (P : Protocol)
    (d : Domain) (c : Command) (ps : List Parameter) (bag : Bag V)
    (hpm : st.parameterMap = buildParamMap P)
    (hnd : (P.domains.map Domain.domain).Nodup)
    (hd : d ∈ P.domains)
    (hnc : (d.commands.map Command.name).Nodup)
    (hc : c ∈ d.commands)
    (hps : c.parameters = some ps)
    (hnp : (ps.map Parameter.name).Nodup)
    (hmiss : (ps.filter (fun p => missingPred bag p.name p)).map
      Parameter.name ≠ []) :
    send st d.domain c.name bag = Except.error
      (c.name ++ " requires '"
        ++ String.intercalate ","
            ((ps.filter (fun p => missingPred bag p.name p)).map
              Parameter.name)
        ++ "' parameter") := by
  have hcm : lookupA (buildCmdMap d.commands) c.name
      = some (ps.map (fun p => (p.name, p))) := by
    rw [buildCmdMap_mem d.commands c hc hnc, hps, buildParams_eq_map ps hnp]
  exact send_of_validate_error st d.domain c.name bag _
    (validateParams_missing _ d.domain c.name bag _ ps
      (hpm ▸ buildParamMap_mem P d hd hnd) hcm hmiss)

/-- Witness for C4: `navigate` with an empty bag is missing exactly its
required `url` parameter. -/
theorem send_missing_params_witness :
    send (initState Nat pageProto) "Page" "navigate" emptyBag
      = Except.error "navigate requires 'url' parameter" := by
  have h := send_missing_params (initState Nat pageProto) pageProto pageDomain
    { name := "navigate"
      parameters := some
        [{ name := "url", optional := none },
         { name := "referrer", optional := some true }] }
    [{ name := "url", optional := none },
     { name := "referrer", optional := some true }]
    emptyBag rfl (by decide) (by decide) (by decide) (by decide) rfl
    (by decide) (by decide)
  exact h

/-- C5: `send` on a command whose declared parameter set is empty
(`parameters` absent or `[]`) passes validation for every bag —
including one holding only undeclared extras — and hands the envelope
to the connection unchanged, with the bag as its `params`. -/
theorem send_empty_schema {V : Type} (st : DState V) (P : Protocol)
    (d : Domain) (c : Command) (bag : Bag V)
    (hpm : st.parameterMap = buildParamMap P)
    (hnd : (P.domains.map Domain.domain).Nodup)
    (hd : d ∈ P.domains)
    (hnc : (d.commands.map Command.name).Nodup)
    (hc : c ∈ d.commands)
    (hempty : c.parameters = none ∨ c.parameters = some []) :
    send st d.domain c.name bag = Except.ok
      ({ st with
           id := st.id + 1
           resolvers := (st.id + 1) :: st.resolvers
           rejectors := (st.id + 1) :: st.rejectors },
       { id := st.id + 1, method := d.domain ++ "." ++ c.name,
         params := bag }) := by
  have hcm : lookupA (buildCmdMap d.commands) c.name = some [] := by
    rw [buildCmdMap_mem d.commands c hc hnc]
    rcases hempty with h | h <;> rw [h] <;> rfl
  exact send_of_validate_ok st d.domain c.name bag
    (validateParams_empty _ d.domain c.name bag _
      (hpm ▸ buildParamMap_mem P d hd hnd) hcm)

/-- Witness for C5: parameterless `reload` succeeds with a bag holding
only an undeclared extra key, and the envelope carries that bag. -/
theorem send_empty_schema_witness :
    send (initState Nat pageProto) "Page" "reload" extraBag
      = Except.ok
          ({ initState Nat pageProto with
               id := 1, resolvers := [1], rejectors := [1] },
           { id := 1, method := "Page" ++ "." ++ "reload",
             params := extraBag }) := by
  have h := send_empty_schema (initState Nat pageProto) pageProto pageDomain
    { name := "reload", parameters := none } extraBag rfl (by decide)
    (by decide) (by decide) (by decide) (Or.inl rfl)
  exact h

/-! ### Inbound-router lemmas -/

theorem filter_ne_self (l : List Nat) (i : Nat) (h : i ∉ l) :
    l.filter (· ≠ i) = l := by
  apply List.filter_eq_self.mpr
  intro a ha
  simp only [ne_eq, decide_not, Bool.not_eq_true', decide_eq_false_iff_not]
  exact fun he => h (he ▸ ha)

theorem handleMessage_reply {V : Type} (st : DState V) (msg : Message V)
    (i : Nat) (hid : msg.id = some i) (hi : i ≠ 0) :
    handleMessage st msg = some
      ({ st with
           resolvers := st.resolvers.filter (· ≠ i)
           rejectors := st.rejectors.filter (· ≠ i) },
       match msg.error with
       | some e => if i ∈ st.rejectors then [Output.reject i e] else []
       | none =>
         if i ∈ st.resolvers then [Output.resolve i msg.result] else []) := by
  unfold handleMessage
  rw [hid, if_pos (show idTruthy (some i) = true by simp [idTruthy, hi])]

theorem handleMessage_event {V : Type} (st : DState V) (msg : Message V)
    (m : String) (hid : idTruthy msg.id = false) (hm : msg.method = some m) :
    handleMessage st msg = some (st,
      ((lookupA st.domainListeners (splitMethod m).1).getD []).map
        (fun h => Output.call h (splitMethod m).2 msg.params)) := by
  simp only [handleMessage, hid, Bool.false_eq_true, if_false, hm]
  cases lookupA st.domainListeners (splitMethod m).1 <;> simp

/-- C1: a reply whose truthy id has a pending entry invokes exactly one
of the pending future's reject (when the message carries an `error`,
with the error's message) or resolve (otherwise, with the `result`
payload), never both; both pending entries for that id are then
removed, and any later reply with the same id invokes nothing and
leaves the state unchanged. -/
theorem reply_correlation {V : Type} (st : DState V) (i : Nat)
    (msg : Message V) (hid : msg.id = some i) (hi : i ≠ 0)
    (hres : i ∈ st.resolvers) (hrej : i ∈ st.rejectors) :
    ∃ st1 : DState V,
      handleMessage st msg = some (st1,
        match msg.error with
        | some e => [Output.reject i e]
        | none => [Output.resolve i msg.result]) ∧
      i ∉ st1.resolvers ∧ i ∉ st1.rejectors ∧
      ∀ msg1 : Message V, msg1.id = some i →
        handleMessage st1 msg1 = some (st1, []) := by
  refine ⟨{ st with
              resolvers := st.resolvers.filter (· ≠ i)
              rejectors := st.rejectors.filter (· ≠ i) }, ?_, ?_, ?_, ?_⟩
  · rw [handleMessage_reply st msg i hid hi]
    cases msg.error with
    | some e => simp [hrej]
    | none => simp [hres]
  · simp
  · simp
  · intro msg1 hid1
    rw [handleMessage_reply _ msg1 i hid1 hi]
    have h1 : i ∉ st.resolvers.filter (· ≠ i) := by simp
    have h2 : i ∉ st.rejectors.filter (· ≠ i) := by simp
    cases msg1.error with
    | some e =>
      simp [h1, h2, filter_ne_self _ i h1, filter_ne_self _ i h2]
    | none =>
      simp [h1, h2, filter_ne_self _ i h1, filter_ne_self _ i h2]

/-- Witness for C1: pending id 1 resolves with the reply's result and a
second reply for id 1 has no effect. -/
theorem reply_correlation_witness :
    ∃ st1 : DState Nat,
      handleMessage (⟨3, [1, 2], [1, 2], [], []⟩ : DState Nat)
          ⟨some 1, none, some 5, none, none⟩
        = some (st1, [Output.resolve 1 (some 5)]) ∧
      1 ∉ st1.resolvers ∧ 1 ∉ st1.rejectors ∧
      ∀ msg1 : Message Nat, msg1.id = some 1 →
        handleMessage st1 msg1 = some (st1, []) :=
  reply_correlation ⟨3, [1, 2], [1, 2], [], []⟩ 1
    ⟨some 1, none, some 5, none, none⟩ rfl (by decide) (by decide) (by decide)

/-- C6: a falsy-id message with method `<d>.<name>` (no dot in `d`)
invokes every listener registered for domain `d`, in registration
order, with `(name, params)`; with no listener entry for `d`, nothing
is invoked and no error occurs, the state being unchanged either
way. -/
theorem event_fanout {V : Type} (st : DState V) (d name : String)
    (err : Option String) (res : Option V) (params : Option V)
    (hnd : '.' ∉ d.data) :
    (∀ hs : List Nat, lookupA st.domainListeners d = some hs →
      handleMessage st ⟨none, err, res, some (d ++ "." ++ name), params⟩
        = some (st, hs.map (fun h => Output.call h name params))) ∧
    (lookupA st.domainListeners d = none →
      handleMessage st ⟨none, err, res, some (d ++ "." ++ name), params⟩
        = some (st, [])) := by
  have he := handleMessage_event st
    ⟨none, err, res, some (d ++ "." ++ name), params⟩
    (d ++ "." ++ name) rfl rfl
  rw [splitMethod_append d name hnd] at he
  simp only at he
  constructor
  · intro hs hl
    rw [he, hl]
    simp
  · intro hl
    rw [he, hl]
    simp

/-- Witness for C6: two listeners on `Page` fire in registration order
for `Page.loaded`; an unregistered domain invokes nothing. -/
theorem event_fanout_witness :
    handleMessage (⟨0, [], [], [("Page", [10, 11])], []⟩ : DState Nat)
        ⟨none, none, none, some ("Page" ++ "." ++ "loaded"), some 7⟩
      = some (⟨0, [], [], [("Page", [10, 11])], []⟩,
          [Output.call 10 "loaded" (some 7), Output.call 11 "loaded" (some 7)]) ∧
    handleMessage (⟨0, [], [], [("Page", [10, 11])], []⟩ : DState Nat)
        ⟨none, none, none, some ("Net" ++ "." ++ "loaded"), some 7⟩
      = some (⟨0, [], [], [("Page", [10, 11])], []⟩, []) :=
  ⟨(event_fanout ⟨0, [], [], [("Page", [10, 11])], []⟩ "Page" "loaded"
      none none (some 7) (by decide)).1 [10, 11] rfl,
   (event_fanout ⟨0, [], [], [("Page", [10, 11])], []⟩ "Net" "loaded"
      none none (some 7) (by decide)).2 rfl⟩

/-- C9: a falsy-id message whose method has no dot is split into domain
`""` and member equal to the whole method string, so exactly the
listeners registered under `""` are invoked, with the full method
string as event name. -/
theorem event_no_dot_empty_domain {V : Type} (st : DState V)
    (msg : Message V) (m : String) (hid : idTruthy msg.id = false)
    (hm : msg.method = some m) (hnd : '.' ∉ m.data) :
    handleMessage st msg = some (st,
      ((lookupA st.domainListeners "").getD []).map
        (fun h => Output.call h m msg.params)) := by
  have he := handleMessage_event st msg m hid hm
  rw [splitMethod_no_dot m hnd] at he
  exact he

/-- Witness for C9: a dot-free method reaches the listener registered
under the empty-string domain with the full method as event name. -/
theorem event_no_dot_empty_domain_witness :
    handleMessage (⟨0, [], [], [("", [5])], []⟩ : DState Nat)
        ⟨none, none, none, some "ping", some 2⟩
      = some (⟨0, [], [], [("", [5])], []⟩, [Output.call 5 "ping" (some 2)]) :=
  event_no_dot_empty_domain ⟨0, [], [], [("", [5])], []⟩
    ⟨none, none, none, some "ping", some 2⟩ "ping" rfl rfl (by decide)

/-- C10: `registerDomainListener` never consults the protocol: for any
name — the schema is not mentioned in any hypothesis, and swapping the
parameter map commutes with registration — the handler is appended to
that name's listener sequence, and a subsequent event whose derived
domain is that name invokes the old listeners then the new one. -/
theorem registerDomainListener_unchecked {V : Type} (st : DState V)
    (name : String) (handler : Nat) :
    (lookupA (registerDomainListener st name handler).domainListeners name
      = some ((lookupA st.domainListeners name).getD [] ++ [handler])) ∧
    (∀ pm1, registerDomainListener { st with parameterMap := pm1 } name handler
      = ({ registerDomainListener st name handler with
             parameterMap := pm1 } : DState V)) ∧
    (∀ (prop : String) (err : Option String) (res : Option V)
        (params : Option V), '.' ∉ name.data →
      handleMessage (registerDomainListener st name handler)
          ⟨none, err, res, some (name ++ "." ++ prop), params⟩
        = some (registerDomainListener st name handler,
            ((lookupA st.domainListeners name).getD [] ++ [handler]).map
              (fun h => Output.call h prop params))) := by
  have hl : lookupA (registerDomainListener st name handler).domainListeners
      name = some ((lookupA st.domainListeners name).getD [] ++ [handler]) := by
    show lookupA (upsert name _ st.domainListeners) name = _
    rw [lookupA_upsert]
    simp
  refine ⟨hl, fun pm1 => rfl, ?_⟩
  intro prop err res params hnd
  have he := handleMessage_event (registerDomainListener st name handler)
    ⟨none, err, res, some (name ++ "." ++ prop), params⟩
    (name ++ "." ++ prop) rfl rfl
  rw [splitMethod_append name prop hnd] at he
  simp only at he
  rw [he, hl]
  simp

/-- Witness for C10: registering under `"Bar"`, a name absent from the
`Page` schema, appends the handler, commutes with replacing the
parameter map, and the handler fires on a `Bar.evt` event. -/
theorem registerDomainListener_unchecked_witness :
    (lookupA (registerDomainListener (initState Nat pageProto) "Bar"
        7).domainListeners "Bar"
      = some ((lookupA (initState Nat pageProto).domainListeners "Bar").getD []
          ++ [7])) ∧
    (∀ pm1, registerDomainListener
        { initState Nat pageProto with parameterMap := pm1 } "Bar" 7
      = ({ registerDomainListener (initState Nat pageProto) "Bar" 7 with
             parameterMap := pm1 } : DState Nat)) ∧
    handleMessage (registerDomainListener (initState Nat pageProto) "Bar" 7)
        ⟨none, none, none, some ("Bar" ++ "." ++ "evt"), some 4⟩
      = some (registerDomainListener (initState Nat pageProto) "Bar" 7,
          [Output.call 7 "evt" (some 4)]) :=
  ⟨(registerDomainListener_unchecked (initState Nat pageProto) "Bar" 7).1,
   (registerDomainListener_unchecked (initState Nat pageProto) "Bar" 7).2.1,
   (registerDomainListener_unchecked (initState Nat pageProto) "Bar" 7).2.2
     "evt" none none (some 4) (by decide)⟩

/-- C7 counterexample: a falsy-id message that carries no `method`
string makes `_handleMessage` read `.indexOf` of `undefined` and throw
a TypeError, modelled as the `none` result — so the router is not
throw-free on every inbound message. -/
theorem router_throws_on_method_free_message :
    handleMessage (initState Nat pageProto)
        (⟨none, none, none, none, none⟩ : Message Nat) = none := rfl

/-- C7 amended: for every inbound message that has a truthy `id` or
carries a `method` string, the router does not throw: replies to
unknown ids and events on unknown or listener-free domains all return
normally. -/
theorem router_total_on_wellformed {V : Type} (st : DState V)
    (msg : Message V) (h : idTruthy msg.id = true ∨ msg.method.isSome) :
    (handleMessage st msg).isSome = true := by
  unfold handleMessage
  cases ht : idTruthy msg.id with
  | true =>
    rw [if_pos rfl]
    cases hid : msg.id with
    | none => rw [hid] at ht; cases ht
    | some i => simp
  | false =>
    rw [if_neg (by simp)]
    cases hm : msg.method with
    | none =>
      rcases h with h | h
      · rw [ht] at h; cases h
      · rw [hm] at h; cases h
    | some m =>
      cases hl : lookupA st.domainListeners (splitMethod m).1 <;> simp [hl]

/-- Witness for C7 amended: a reply to an id with no pending entry and
an event on a domain with no listeners both return normally. -/
theorem router_total_on_wellformed_witness :
    (handleMessage (initState Nat pageProto)
        (⟨some 9, none, some 1, none, none⟩ : Message Nat)).isSome = true ∧
    (handleMessage (initState Nat pageProto)
        (⟨none, none, none, some "Net.request", none⟩ : Message Nat)).isSome
      = true :=
  ⟨router_total_on_wellformed (initState Nat pageProto)
     ⟨some 9, none, some 1, none, none⟩ (Or.inl (by decide)),
   router_total_on_wellformed (initState Nat pageProto)
     ⟨none, none, none, some "Net.request", none⟩ (Or.inr (by decide))⟩

theorem find?_domain_eq (l : List Domain) (d : Domain) (hd : d ∈ l)
    (hnd : (l.map Domain.domain).Nodup) :
    l.find? (fun d0 => d0.domain = d.domain) = some d := by
  induction l with
  | nil => cases hd
  | cons a tl ih =>
    rw [List.map_cons, List.nodup_cons] at hnd
    rcases List.mem_cons.mp hd with he | ht
    · subst he
      rw [List.find?_cons_of_pos _ (by simp)]
    · have hne : a.domain ≠ d.domain := by
        intro he
        exact hnd.1 (he ▸ List.mem_map_of_mem Domain.domain ht)
      rw [List.find?_cons_of_neg _ (by simp [hne]), ih ht hnd.2]

/-- C8: for a domain present in the protocol definition,
`getDomainEventNames` returns the names of its `events` array in
declared order, and the empty sequence when the `events` field is
absent. -/
theorem domainEventNames_spec (P : Protocol) (d : Domain)
    (hd : d ∈ P.domains) (hnd : (P.domains.map Domain.domain).Nodup) :
    getDomainEventNames P d.domain
      = some ((d.events.getD []).map EventInfo.name) := by
  unfold getDomainEventNames
  rw [show getDomainDefinition P d.domain = some d from
    find?_domain_eq P.domains d hd hnd]
  obtain ⟨dn, dc, de⟩ := d
  cases de <;> rfl

/-- Witness for C8: the `Page` domain declares exactly the event
`loaded`. -/
theorem domainEventNames_spec_witness :
    getDomainEventNames pageProto "Page" = some ["loaded"] :=
  domainEventNames_spec pageProto pageDomain (by decide) (by decide)

end V8Control
